import Mathlib

/-!
Shallow embedding of the toronto-covid enrichment program (src/src/main.rs).

The program joins three datasets by canonical neighbourhood name:
COVID case records are aggregated into a count map, a census table yields a
population map, and both are injected into each boundary feature's property
bag.  The definitions below translate the relevant Rust functions; machine
integers are modelled as `Nat` with explicit bounds where the code checks
them, fallible steps (`unwrap`, `ok_or`) return `Option`.
-/

set_option maxRecDepth 8192

namespace TorontoCovid

/-- A JSON value as far as the program inspects or creates one: the code only
pattern-matches on strings (`Value::String`) and inserts numbers. -/
inductive JsonVal where
  | str (s : String)
  | num (n : Nat)
  | null
deriving DecidableEq

/-- A feature's property bag: `serde_json::Map<String, Value>` modelled as an
association list. -/
abbrev PropBag := List (String × JsonVal)

/-- Lookup in a property bag (`Map::get`): first matching key. -/
def bagGet : PropBag → String → Option JsonVal
  | [], _ => none
  | (k', v) :: rest, k => if k' = k then some v else bagGet rest k

/-- Insert into a property bag (`Map::insert`): replace the value at an
existing key, otherwise append the new entry. -/
def bagInsert : PropBag → String → JsonVal → PropBag
  | [], k, v => [(k, v)]
  | (k', v') :: rest, k, v =>
    if k' = k then (k, v) :: rest else (k', v') :: bagInsert rest k v

/-- One COVID case record (`struct CovidEntry`). -/
structure CovidEntry where
  id : Nat
  outbreak_associated : String
  age_group : Option String
  neighbourhood : Option String
  fsa : Option String
deriving DecidableEq

/-- One census row (`struct CensusEntry`): the wide neighbourhood columns are
the flattened `HashMap<String, Option<String>>`, here listed in some order. -/
structure CensusEntry where
  id : Nat
  category : String
  topic : String
  data_source : String
  neighbourhoods : List (String × Option String)
deriving DecidableEq

/-- The tagged census category (`enum CensusEntryCategory`, discriminated by
the "Characteristic" field). -/
inductive CensusEntryCategory where
  | NeighbourhoodInformation (e : CensusEntry)
  | Population2016 (e : CensusEntry)
  | Other
deriving DecidableEq

/-- The fixed variant table (`fn neighbourhood_names_normalizer`): six known
spelling variants map to their canonical form, everything else is unchanged. -/
def neighbourhood_names_normalizer (name : String) : String :=
  match name with
  | "Weston-Pellam Park" => "Weston-Pelham Park"
  | "Briar Hill - Belgravia" => "Briar Hill-Belgravia"
  | "Cabbagetown-South St.James Town" => "Cabbagetown-South St. James Town"
  | "North St.James Town" => "North St. James Town"
  | "Mimico (includes Humber Bay Shores)" => "Mimico"
  | "Danforth East York" => "Danforth-East York"
  | _ => name

/-- Rust `str::split(" (")` on the character list: `acc` holds the current
segment reversed; a space directly followed by an opening parenthesis ends the
segment.  The iterator form of the Rust code only consumes the first segment,
but the full split is embedded so that the shape of the iterator (always at
least one segment) can be stated. -/
def splitGo (acc : List Char) : List Char → List (List Char)
  | [] => [acc.reverse]
  | [c] => [(c :: acc).reverse]
  | c1 :: c2 :: rest =>
    if c1 = ' ' ∧ c2 = '(' then acc.reverse :: splitGo [] rest
    else splitGo (c1 :: acc) (c2 :: rest)

/-- `fn get_name`: read the "AREA_NAME" property (must be a string), truncate
at the first " (", normalize.  `none` models the `Err(())` outcomes. -/
def get_name (data : PropBag) : Option String :=
  match bagGet data "AREA_NAME" with
  | some (JsonVal.str s) =>
    match (splitGo [] s.toList).head? with
    | some seg => some (neighbourhood_names_normalizer (String.mk seg))
    | none => none
  | _ => none

/-- Rust `pop.replace(",", "")`: remove every comma character. -/
def stripCommas (s : String) : String :=
  String.mk (s.toList.filter (fun c => c ≠ ','))

/-- Rust `str::parse::<u32>()`: an optional leading plus sign, then at least
one ASCII digit, and the value must fit in 32 bits; anything else fails. -/
def parseU32 (s : String) : Option Nat :=
  let cs := s.toList
  let ds := match cs with
    | '+' :: rest => rest
    | _ => cs
  if ds = [] then none
  else if ds.all (fun c => c.isDigit) then
    let n := ds.foldl (fun acc c => acc * 10 + (c.toNat - 48)) 0
    if n < 4294967296 then some n else none
  else none

/-- The per-cell closure of the population table builder (main.rs lines
103-113): skip an absent value, otherwise strip commas, parse, and pair the
parsed number with the normalized column name; a failed parse yields nothing. -/
def population_cell (cell : String × Option String) : Option (String × Nat) :=
  match cell.2 with
  | some pop =>
    let n := neighbourhood_names_normalizer cell.1
    (parseU32 (stripCommas pop)).map (fun p => (n, p))
  | none => none

/-- The population table builder applied to the selected row: `filter_map`
over the wide columns (collection into the map keeps every produced pair; a
later pair with an equal key would shadow an earlier one on lookup). -/
def build_populations (e : CensusEntry) : List (String × Nat) :=
  e.neighbourhoods.filterMap population_cell

/-- Row selection in `main` (lines 92-99): keep the `Population2016` rows and
take the first; `none` models the panic of `.unwrap()` on an empty iterator. -/
def select_population_row (census : List CensusEntryCategory) : Option CensusEntry :=
  (census.filterMap (fun c =>
    match c with
    | CensusEntryCategory.Population2016 e => some e
    | _ => none)).head?

/-- Whether a census list element is tagged `Population2016`. -/
def is_population_row : CensusEntryCategory → Bool
  | CensusEntryCategory.Population2016 _ => true
  | _ => false

/-- One step of the aggregation loop (main.rs lines 117-124): a record with
an absent neighbourhood is skipped, otherwise the counter of the normalized
name is incremented, starting from zero. -/
def countStep (m : String → Option Nat) (e : CovidEntry) : String → Option Nat :=
  match e.neighbourhood with
  | some n =>
    let k := neighbourhood_names_normalizer n
    fun k' => if k' = k then some ((m k).getD 0 + 1) else m k'
  | none => m

/-- The aggregator: fold the loop body over the record list, starting from the
empty map (a `HashMap` modelled extensionally as a partial function). -/
def aggregate (records : List CovidEntry) : String → Option Nat :=
  records.foldl countStep (fun _ => none)

/-- A boundary feature: a property bag (possibly absent, as in geojson) and a
geometry the program never inspects, kept abstract as a type parameter. -/
structure Feature (γ : Type) where
  properties : Option PropBag
  geometry : γ
deriving DecidableEq

/-- The per-feature enrichment (main.rs lines 128-139): a feature without a
property bag is left untouched; otherwise the canonical name is derived
(`get_name(...).unwrap()`), both maps are consulted (`.get(&name).unwrap()`),
and the two numbers are inserted.  `none` models any of the three panics. -/
def enrich_feature {γ : Type} (counts pops : String → Option Nat)
    (f : Feature γ) : Option (Feature γ) :=
  match f.properties with
  | none => some f
  | some props =>
    match get_name props with
    | none => none
    | some name =>
      match counts name with
      | none => none
      | some c =>
        let props1 := bagInsert props "covid_case_count" (JsonVal.num c)
        match pops name with
        | none => none
        | some p =>
          some (Feature.mk (some (bagInsert props1 "population" (JsonVal.num p))) f.geometry)

/-- The enrichment loop over the whole feature collection: any panic aborts
the run before the output file is written, so a single `none` yields `none`
for the whole batch. -/
def enrich {γ : Type} (counts pops : String → Option Nat) :
    List (Feature γ) → Option (List (Feature γ))
  | [] => some []
  | f :: rest =>
    match enrich_feature counts pops f with
    | none => none
    | some g => (enrich counts pops rest).map (fun gs => g :: gs)

/-- The derived canonical name of a feature, when its property bag exists and
carries a string "AREA_NAME". -/
def derived_name {γ : Type} (f : Feature γ) : Option String :=
  f.properties.bind get_name

/-- The Canonical Name Registry (`const NEIGHBOURHOOD_NAMES`), all 141
entries in source order. -/
def NEIGHBOURHOOD_NAMES : List String := [
  "Lambton Baby Point",
  "Yonge-Eglinton",
  "Ionview",
  "Flemingdon Park",
  "Banbury-Don Mills",
  "Mount Dennis",
  "Alderwood",
  "Clanton Park",
  "Bay Street Corridor",
  "Don Valley Village",
  "Bridle Path-Sunnybrook-York Mills",
  "Downsview-Roding-CFB",
  "Clairlea-Birchmount",
  "North Riverdale",
  "Mount Pleasant West",
  "Westminster-Branson",
  "Eringate-Centennial-West Deane",
  "Oakridge",
  "Tam O\x27Shanter-Sullivan",
  "South Riverdale",
  "Birchcliffe-Cliffside",
  "Palmerston-Little Italy",
  "Kingsview Village-The Westway",
  "Morningside",
  "Oakwood Village",
  "Runnymede-Bloor West Village",
  "Princess-Rosethorn",
  "Kensington-Chinatown",
  "O\x27Connor-Parkview",
  "Agincourt North",
  "Lawrence Park North",
  "Dorset Park",
  "Wychwood",
  "Yonge-St.Clair",
  "Kingsway South",
  "Parkwoods-Donalda",
  "Rexdale-Kipling",
  "Church-Yonge Corridor",
  "Brookhaven-Amesbury",
  "Bayview Village",
  "Humber Heights-Westmount",
  "Bayview Woods-Steeles",
  "Niagara",
  "Long Branch",
  "Leaside-Bennington",
  "St.Andrew-Windfields",
  "Corso Italia-Davenport",
  "Wexford/Maryvale",
  "Cliffcrest",
  "Steeles",
  "Broadview North",
  "Etobicoke West Mall",
  "L\x27Amoreaux",
  "South Parkdale",
  "Willowdale East",
  "Bedford Park-Nortown",
  "North St. James Town",
  "Woodbine Corridor",
  "Playter Estates-Danforth",
  "Lawrence Park South",
  "Casa Loma",
  "Scarborough Village",
  "Edenbridge-Humber Valley",
  "Beechborough-Greenbrook",
  "Pleasant View",
  "Danforth",
  "Old East York",
  "Islington-City Centre West",
  "Humewood-Cedarvale",
  "York University Heights",
  "Taylor-Massey",
  "Mount Olive-Silverstone-Jamestown",
  "Roncesvalles",
  "Trinity-Bellwoods",
  "Mount Pleasant East",
  "Humbermede",
  "Keelesdale-Eglinton West",
  "Highland Creek",
  "Thorncliffe Park",
  "Rosedale-Moore Park",
  "Junction Area",
  "Lansing-Westgate",
  "Regent Park",
  "Thistletown-Beaumond Heights",
  "Markland Wood",
  "Guildwood",
  "Henry Farm",
  "Maple Leaf",
  "Danforth East York",
  "Woburn",
  "High Park-Swansea",
  "Milliken",
  "Victoria Village",
  "Yorkdale-Glen Park",
  "Glenfield-Jane Heights",
  "City of Toronto",
  "High Park North",
  "Waterfront Communities-The Island",
  "Centennial Scarborough",
  "The Beaches",
  "Agincourt South-Malvern West",
  "West Hill",
  "Englemount-Lawrence",
  "Rockcliffe-Smythe",
  "Dovercourt-Wallace Emerson-Junction",
  "Stonegate-Queensway",
  "Bathurst Manor",
  "Newtonbrook West",
  "Rustic",
  "Forest Hill South",
  "Mimico (includes Humber Bay Shores)",
  "Woodbine-Lumsden",
  "Caledonia-Fairbank",
  "Greenwood-Coxwell",
  "Annex",
  "Eglinton East",
  "Malvern",
  "Hillcrest Village",
  "Willowdale West",
  "Little Portugal",
  "Black Creek",
  "Kennedy Park",
  "New Toronto",
  "University",
  "East End-Danforth",
  "Bendale",
  "Elms-Old Rexdale",
  "Blake-Jones",
  "West Humber-Clairville",
  "Dufferin Grove",
  "Briar Hill-Belgravia",
  "Willowridge-Martingrove-Richview",
  "Pelmo Park-Humberlea",
  "Cabbagetown-South St. James Town",
  "Weston-Pelham Park",
  "Moss Park",
  "Forest Hill North",
  "Weston",
  "Rouge",
  "Newtonbrook East",
  "Humber Summit"]

/-- The registry has exactly 141 entries, as in the source constant. -/
theorem NEIGHBOURHOOD_NAMES_length : NEIGHBOURHOOD_NAMES.length = 141 := by decide

/-- C1 counterexample: the registry entry "Danforth East York" is a variant
spelling, and the normalizer rewrites it, so the normalizer is not the
identity on the whole Canonical Name Registry. -/
theorem c1_counterexample :
    "Danforth East York" ∈ NEIGHBOURHOOD_NAMES ∧
    neighbourhood_names_normalizer "Danforth East York" ≠ "Danforth East York" := by
  exact ⟨by decide, by decide⟩

/-- C1 (amended): for every registry name other than the two variant
spellings the registry contains ("Danforth East York" and
"Mimico (includes Humber Bay Shores)"), the normalizer is the identity. -/
theorem c1_registry_identity :
    ∀ name ∈ NEIGHBOURHOOD_NAMES,
      name ≠ "Danforth East York" →
      name ≠ "Mimico (includes Humber Bay Shores)" →
      neighbourhood_names_normalizer name = name := by decide

/-- Witness for C1 (amended) at the registry name "Annex". -/
theorem c1_registry_identity_witness :
    "Annex" ∈ NEIGHBOURHOOD_NAMES ∧ neighbourhood_names_normalizer "Annex" = "Annex" :=
  ⟨by decide, c1_registry_identity "Annex" (by decide) (by decide) (by decide)⟩

/-- A concrete census row tagged as 2016 population. -/
def censusRowA : CensusEntry :=
  CensusEntry.mk 1 "Population and dwellings" "Population" "Census"
    [("City of Toronto", some "2,731,571")]

/-- A second, distinct census row tagged as 2016 population. -/
def censusRowB : CensusEntry :=
  CensusEntry.mk 2 "Population and dwellings" "Population" "Census"
    [("City of Toronto", some "9,999,999")]

/-- C2 counterexample: a census list with two rows in the "Population, 2016"
category does not fail; the builder silently selects the first row. -/
theorem c2_counterexample :
    (List.countP is_population_row
      [CensusEntryCategory.Population2016 censusRowA,
       CensusEntryCategory.Population2016 censusRowB]) = 2 ∧
    select_population_row
      [CensusEntryCategory.Population2016 censusRowA,
       CensusEntryCategory.Population2016 censusRowB] = some censusRowA := by
  exact ⟨by decide, by decide⟩

/-- C2 (amended): the builder fails (with the `MissingCategoryRow` panic)
exactly when no "Population, 2016" row exists, and otherwise selects the
first such row, silently ignoring any later duplicates. -/
theorem c2_first_population_row (census : List CensusEntryCategory) :
    (select_population_row census = none ↔ ∀ c ∈ census, is_population_row c = false) ∧
    (∀ pre e post,
      census = pre ++ CensusEntryCategory.Population2016 e :: post →
      (∀ c ∈ pre, is_population_row c = false) →
      select_population_row census = some e) := by
  constructor
  · unfold select_population_row
    rw [List.head?_eq_none_iff, List.filterMap_eq_nil_iff]
    constructor
    · intro h c hc
      have := h c hc
      cases c <;> simp_all [is_population_row]
    · intro h c hc
      have := h c hc
      cases c <;> simp_all [is_population_row]
  · intro pre e post hcensus hpre
    subst hcensus
    unfold select_population_row
    rw [List.filterMap_append]
    have hnil : List.filterMap (fun c =>
        match c with
        | CensusEntryCategory.Population2016 e => some e
        | _ => none) pre = [] := by
      rw [List.filterMap_eq_nil_iff]
      intro c hc
      have := hpre c hc
      cases c <;> simp_all [is_population_row]
    rw [hnil]
    simp [List.filterMap_cons]

/-- Witness for C2 (amended): a concrete census list whose first
"Population, 2016" row sits after an `Other` row. -/
theorem c2_first_population_row_witness :
    select_population_row
      [CensusEntryCategory.Other, CensusEntryCategory.Population2016 censusRowA]
      = some censusRowA :=
  (c2_first_population_row _).2 [CensusEntryCategory.Other] censusRowA [] rfl (by decide)

/-- C8: the name normalizer is idempotent on every string, in particular on
all known variant spellings and on all canonical names. -/
theorem c8_normalizer_idempotent (x : String) :
    neighbourhood_names_normalizer (neighbourhood_names_normalizer x)
      = neighbourhood_names_normalizer x := by
  unfold neighbourhood_names_normalizer
  split <;> first | rfl | (split <;> simp_all)

/-- The boundary feature of the C7 concrete scenario. -/
def mimicoFeature : Feature Nat :=
  Feature.mk (some [("AREA_NAME", JsonVal.str "Mimico (includes Humber Bay Shores)")]) 0

/-- The count map of the C7 concrete scenario. -/
def mimicoCounts : String → Option Nat := fun n => if n = "Mimico" then some 7 else none

/-- The population map of the C7 concrete scenario. -/
def mimicoPops : String → Option Nat := fun n => if n = "Mimico" then some 32000 else none

/-- C7: the area name "Mimico (includes Humber Bay Shores)" derives the
canonical name "Mimico", and with counts Mimico to 7 and populations Mimico to
32000 the feature gains covid_case_count 7 and population 32000. -/
theorem c7_mimico_concrete :
    get_name [("AREA_NAME", JsonVal.str "Mimico (includes Humber Bay Shores)")]
      = some "Mimico" ∧
    ∃ bag, enrich_feature mimicoCounts mimicoPops mimicoFeature
        = some (Feature.mk (some bag) 0) ∧
      bagGet bag "covid_case_count" = some (JsonVal.num 7) ∧
      bagGet bag "population" = some (JsonVal.num 32000) := by
  refine ⟨by decide,
    [("AREA_NAME", JsonVal.str "Mimico (includes Humber Bay Shores)"),
     ("covid_case_count", JsonVal.num 7), ("population", JsonVal.num 32000)],
    by decide, by decide, by decide⟩

/-- The per-cell rule of the specification, written from the wording of §4.4:
an absent value is skipped; a present value has its comma characters stripped
and is parsed as a non-negative 32-bit integer; a failed parse is silently
skipped; a successful parse yields the pair of the normalized raw name and
the parsed number. -/
def population_cell_spec (cell : String × Option String) : Option (String × Nat) :=
  match cell.2 with
  | none => none
  | some v =>
    match parseU32 (stripCommas v) with
    | none => none
    | some p => some (neighbourhood_names_normalizer cell.1, p)

/-- C6: the builder treats every cell of the selected row exactly as the
specification describes, and concretely "12,345" parses to 12345 while an
absent cell and the non-numeric cell "n/a" are skipped without error. -/
theorem c6_population_cells (e : CensusEntry) :
    build_populations e = e.neighbourhoods.filterMap population_cell_spec ∧
    parseU32 (stripCommas "12,345") = some 12345 ∧
    population_cell ("City of Toronto", some "12,345") = some ("City of Toronto", 12345) ∧
    population_cell ("City of Toronto", none) = none ∧
    population_cell ("City of Toronto", some "n/a") = none := by
  refine ⟨?_, by decide, by decide, by decide, by decide⟩
  unfold build_populations
  congr 1
  funext cell
  obtain ⟨raw, v⟩ := cell
  cases v with
  | none => rfl
  | some pop =>
    simp only [population_cell, population_cell_spec]
    cases parseU32 (stripCommas pop) <;> simp

/-- The split iterator always yields at least one segment, whatever the
accumulated prefix and the remaining input. -/
theorem splitGo_ne_nil (acc cs : List Char) : splitGo acc cs ≠ [] := by
  induction acc, cs using splitGo.induct <;> simp_all [splitGo]
  split <;> simp_all

/-- C10: splitting any string at " (" yields at least one segment, so the
error branch after the split in `get_name` is unreachable: `get_name`
succeeds exactly when the property bag holds a string under "AREA_NAME". -/
theorem c10_get_name_total (bag : PropBag) :
    (∀ cs : List Char, splitGo [] cs ≠ []) ∧
    ((get_name bag).isSome ↔ ∃ s, bagGet bag "AREA_NAME" = some (JsonVal.str s)) := by
  refine ⟨fun cs => splitGo_ne_nil [] cs, ?_⟩
  cases h : bagGet bag "AREA_NAME" with
  | none => simp [get_name, h]
  | some v =>
    cases v with
    | str s =>
      cases hh : (splitGo [] s.data).head? with
      | none => exact absurd (List.head?_eq_none_iff.mp hh) (splitGo_ne_nil [] s.toList)
      | some seg => simp [get_name, h, hh]
    | num n => simp [get_name, h]
    | null => simp [get_name, h]

/-- Witness for C10 at the empty property bag and a concrete split input. -/
theorem c10_get_name_total_witness :
    splitGo [] "Mimico (includes Humber Bay Shores)".toList ≠ [] ∧
    ((get_name []).isSome ↔ ∃ s, bagGet [] "AREA_NAME" = some (JsonVal.str s)) :=
  ⟨(c10_get_name_total []).1 _, (c10_get_name_total []).2⟩

/-- Looking up the key just inserted returns the inserted value. -/
theorem bagGet_bagInsert_self (bag : PropBag) (k : String) (v : JsonVal) :
    bagGet (bagInsert bag k v) k = some v := by
  induction bag with
  | nil => simp [bagInsert, bagGet]
  | cons hd tl ih =>
    obtain ⟨k', v'⟩ := hd
    by_cases h : k' = k
    · simp [bagInsert, bagGet, h]
    · simp [bagInsert, bagGet, h, ih]

/-- Inserting under one key leaves lookups of every other key unchanged. -/
theorem bagGet_bagInsert_ne (bag : PropBag) (k k2 : String) (v : JsonVal)
    (h : k2 ≠ k) : bagGet (bagInsert bag k2 v) k = bagGet bag k := by
  induction bag with
  | nil => simp [bagInsert, bagGet, h]
  | cons hd tl ih =>
    obtain ⟨k', v'⟩ := hd
    by_cases h2 : k' = k2
    · subst h2
      simp [bagInsert, bagGet, h]
    · simp [bagInsert, bagGet, h2, ih]

/-- C3: when every feature's derived canonical name has an entry in both the
count map and the population map, enrichment succeeds, keeps the number of
features, and every output feature carries both integer properties. -/
theorem c3_join_totality {γ : Type} (counts pops : String → Option Nat)
    (features : List (Feature γ))
    (h : ∀ f ∈ features,
      ((derived_name f).bind counts).isSome ∧ ((derived_name f).bind pops).isSome) :
    ∃ out, enrich counts pops features = some out ∧
      out.length = features.length ∧
      ∀ g ∈ out, ∃ bag c p, g.properties = some bag ∧
        bagGet bag "covid_case_count" = some (JsonVal.num c) ∧
        bagGet bag "population" = some (JsonVal.num p) := by
  induction features with
  | nil => exact ⟨[], rfl, rfl, by simp⟩
  | cons f rest ih =>
    obtain ⟨h1, h2⟩ := h f (List.mem_cons_self f rest)
    obtain ⟨out, hout, hlen, hprops⟩ := ih (fun g hg => h g (List.mem_cons_of_mem f hg))
    cases hp : f.properties with
    | none =>
      rw [derived_name, hp] at h1
      simp at h1
    | some props =>
      cases hn : get_name props with
      | none =>
        rw [derived_name, hp] at h1
        simp [hn] at h1
      | some name =>
        rw [derived_name, hp] at h1 h2
        simp only [Option.some_bind, hn] at h1 h2
        obtain ⟨c, hc⟩ := Option.isSome_iff_exists.mp h1
        obtain ⟨p, hpp⟩ := Option.isSome_iff_exists.mp h2
        refine ⟨Feature.mk (some (bagInsert
          (bagInsert props "covid_case_count" (JsonVal.num c))
          "population" (JsonVal.num p))) f.geometry :: out, ?_, ?_, ?_⟩
        · simp [enrich, enrich_feature, hp, hn, hc, hpp, hout]
        · simp [hlen]
        · intro g hg
          rcases List.mem_cons.mp hg with hg | hg
          · subst hg
            refine ⟨_, c, p, rfl, ?_, ?_⟩
            · rw [bagGet_bagInsert_ne _ _ _ _ (by decide)]
              exact bagGet_bagInsert_self _ _ _
            · exact bagGet_bagInsert_self _ _ _
          · exact hprops g hg

/-- Witness for C3: the single-feature Mimico collection with both maps
populated. -/
theorem c3_join_totality_witness :
    ∃ out, enrich mimicoCounts mimicoPops [mimicoFeature] = some out ∧
      out.length = [mimicoFeature].length ∧
      ∀ g ∈ out, ∃ bag c p, g.properties = some bag ∧
        bagGet bag "covid_case_count" = some (JsonVal.num c) ∧
        bagGet bag "population" = some (JsonVal.num p) :=
  c3_join_totality mimicoCounts mimicoPops [mimicoFeature] (by decide)

/-- A feature whose bag already carries a "population" property. -/
def c4Bag : PropBag := [("AREA_NAME", JsonVal.str "Mimico"), ("population", JsonVal.num 5)]

/-- The feature built over `c4Bag`. -/
def c4Feature : Feature Nat := Feature.mk (some c4Bag) 0

/-- C4 counterexample: a feature whose bag already holds "population" has
that pre-existing value overwritten by enrichment, so enrichment does not
preserve every pre-existing key. -/
theorem c4_counterexample :
    ¬ (∀ g : Feature Nat, enrich_feature mimicoCounts mimicoPops c4Feature = some g →
        ∀ bag2, g.properties = some bag2 →
        ∀ k v, bagGet c4Bag k = some v → bagGet bag2 k = some v) := by
  intro hcl
  have h := hcl
    (Feature.mk (some [("AREA_NAME", JsonVal.str "Mimico"),
      ("population", JsonVal.num 32000), ("covid_case_count", JsonVal.num 7)]) 0)
    (by decide) _ rfl "population" (JsonVal.num 5) (by decide)
  exact absurd h (by decide)

/-- C4 (amended): enrichment keeps the geometry and every pre-existing
property except possibly the two injected keys "covid_case_count" and
"population", which may replace equally named pre-existing entries. -/
theorem c4_frame {γ : Type} (counts pops : String → Option Nat) (f g : Feature γ)
    (h : enrich_feature counts pops f = some g) :
    g.geometry = f.geometry ∧
    ∀ bag, f.properties = some bag →
      ∃ bag2, g.properties = some bag2 ∧
        ∀ k, k ≠ "covid_case_count" → k ≠ "population" →
          bagGet bag2 k = bagGet bag k := by
  cases hp : f.properties with
  | none =>
    simp only [enrich_feature, hp] at h
    obtain rfl : f = g := by injection h
    exact ⟨rfl, fun bag hbag => by simp [hp] at hbag⟩
  | some props =>
    simp only [enrich_feature, hp] at h
    cases hn : get_name props with
    | none => simp [hn] at h
    | some name =>
      simp only [hn] at h
      cases hc : counts name with
      | none => simp [hc] at h
      | some c =>
        simp only [hc] at h
        cases hpop : pops name with
        | none => simp [hpop] at h
        | some p =>
          simp only [hpop] at h
          obtain rfl : Feature.mk (some (bagInsert
              (bagInsert props "covid_case_count" (JsonVal.num c))
              "population" (JsonVal.num p))) f.geometry = g := by injection h
          refine ⟨rfl, fun bag hbag => ?_⟩
          obtain rfl : props = bag := by injection hbag
          refine ⟨_, rfl, fun k hk1 hk2 => ?_⟩
          rw [bagGet_bagInsert_ne _ _ _ _ (Ne.symm hk2),
            bagGet_bagInsert_ne _ _ _ _ (Ne.symm hk1)]

/-- The enrichment result of the Mimico feature, written out. -/
def enrichedMimico : Feature Nat :=
  Feature.mk (some [("AREA_NAME", JsonVal.str "Mimico (includes Humber Bay Shores)"),
    ("covid_case_count", JsonVal.num 7), ("population", JsonVal.num 32000)]) 0

/-- Witness for C4 (amended) at the concrete Mimico feature. -/
theorem c4_frame_witness :
    enrichedMimico.geometry = mimicoFeature.geometry ∧
    ∀ bag, mimicoFeature.properties = some bag →
      ∃ bag2, enrichedMimico.properties = some bag2 ∧
        ∀ k, k ≠ "covid_case_count" → k ≠ "population" →
          bagGet bag2 k = bagGet bag k :=
  c4_frame mimicoCounts mimicoPops mimicoFeature enrichedMimico (by decide)

/-- C5: one feature whose derived canonical name misses either map makes the
whole enrichment fail, so no output document is produced. -/
theorem c5_join_failure {γ : Type} (counts pops : String → Option Nat)
    (features : List (Feature γ)) (f : Feature γ) (bag : PropBag) (name : String)
    (hf : f ∈ features) (hb : f.properties = some bag) (hn : get_name bag = some name)
    (hmiss : counts name = none ∨ pops name = none) :
    enrich counts pops features = none := by
  induction features with
  | nil => cases hf
  | cons g rest ih =>
    rcases List.mem_cons.mp hf with hcase | hcase
    · subst hcase
      have hef : enrich_feature counts pops f = none := by
        rcases hmiss with hm | hm
        · simp [enrich_feature, hb, hn, hm]
        · cases hc : counts name with
          | none => simp [enrich_feature, hb, hn, hc]
          | some c => simp [enrich_feature, hb, hn, hc, hm]
      simp [enrich, hef]
    · cases he : enrich_feature counts pops g with
      | none => simp [enrich, he]
      | some g2 => simp [enrich, he, ih hcase]

/-- A feature whose derived name appears in neither map. -/
def c5Feature : Feature Nat := Feature.mk (some [("AREA_NAME", JsonVal.str "Mimico")]) 0

/-- Witness for C5: a singleton collection joined against empty maps. -/
theorem c5_join_failure_witness :
    enrich (fun _ => none) (fun _ => none) [c5Feature] = none :=
  c5_join_failure (fun _ => none) (fun _ => none) [c5Feature] c5Feature
    [("AREA_NAME", JsonVal.str "Mimico")] "Mimico"
    (by decide) rfl (by decide) (Or.inl rfl)

/-- The aggregation step commutes with itself, whatever two records it
processes in either order. -/
theorem countStep_comm (z : String → Option Nat) (x y : CovidEntry) :
    countStep (countStep z x) y = countStep (countStep z y) x := by
  cases hx : x.neighbourhood with
  | none => simp [countStep, hx]
  | some nx =>
    cases hy : y.neighbourhood with
    | none => simp [countStep, hx, hy]
    | some ny =>
      funext k
      simp only [countStep, hx, hy]
      by_cases h1 : k = neighbourhood_names_normalizer nx <;>
      by_cases h2 : k = neighbourhood_names_normalizer ny <;>
      by_cases h3 : neighbourhood_names_normalizer nx = neighbourhood_names_normalizer ny <;>
      simp_all

/-- C9: aggregation is order-independent: permuted record lists yield the
same count map. -/
theorem c9_aggregate_perm (l1 l2 : List CovidEntry) (h : l1.Perm l2) :
    aggregate l1 = aggregate l2 := by
  unfold aggregate
  exact h.foldl_eq' (fun x _ y _ z => countStep_comm z x y) _

/-- A record naming the Mimico neighbourhood. -/
def c9r1 : CovidEntry := CovidEntry.mk 1 "No" none (some "Mimico") none

/-- A record with no neighbourhood recorded. -/
def c9r2 : CovidEntry := CovidEntry.mk 2 "Yes" none none none

/-- Witness for C9: two concrete record lists that are permutations of each
other aggregate identically. -/
theorem c9_aggregate_perm_witness :
    List.Perm [c9r1, c9r2] [c9r2, c9r1] ∧
    aggregate [c9r1, c9r2] = aggregate [c9r2, c9r1] :=
  ⟨by decide, c9_aggregate_perm _ _ (by decide)⟩

end TorontoCovid
